import Mathlib

/-!
Verification of the foolang compiler pipeline (lexer, parser, optimizer,
code generator) against its specification.  Each definition is a shallow
embedding of the corresponding Python function in `src/foolang/`; the
Python name is recorded in the doc comment of each definition.
-/

namespace Foolang

/-! ## Python float values

The compiler stores numeric literals as Python `float`s.  We model a float
value as either a finite exact rational (a numerator/denominator pair, the
denominator kept positive by every constructing operation) or one of the
IEEE special values `inf`, `-inf`, `nan`.  Finite arithmetic is modelled
exactly (no rounding and no overflow to `inf`); none of the properties
verified below depends on rounding or on overflow of finite operations.
Comparisons and equality follow IEEE/Python semantics, in particular `nan`
compares unequal to everything including itself.
-/
inductive PyFloat where
  | finite (num : Int) (den : Int)
  | inf
  | negInf
  | nan
deriving DecidableEq, Repr

/-- The float value `0.0` (Python `-0.0` is also modelled by this value;
the code never distinguishes the two). -/
def pfZero : PyFloat := .finite 0 1

/-- Python `==` on floats: exact value equality of finite values (tested by
cross-multiplication), `inf == inf`, `-inf == -inf`; `nan` is equal to
nothing, itself included. -/
def pfEqB : PyFloat → PyFloat → Bool
  | .finite a b, .finite c d => a * d == c * b
  | .inf, .inf => true
  | .negInf, .negInf => true
  | _, _ => false

/-- Python `!=` on floats (the negation of `==`, so `nan != x` is true). -/
def pfNeB (x y : PyFloat) : Bool := !(pfEqB x y)

/-- Python `<` on floats (false whenever either side is `nan`). -/
def pfLtB : PyFloat → PyFloat → Bool
  | .finite a b, .finite c d => a * d < c * b
  | .finite _ _, .inf => true
  | .negInf, .finite _ _ => true
  | .negInf, .inf => true
  | _, _ => false

/-- Python `<=` on floats: `x <= y` holds iff `x < y` or `x == y`. -/
def pfLeB (x y : PyFloat) : Bool := pfLtB x y || pfEqB x y

/-- Python `>` on floats. -/
def pfGtB (x y : PyFloat) : Bool := pfLtB y x

/-- Python `>=` on floats. -/
def pfGeB (x y : PyFloat) : Bool := pfLeB y x

/-- Unary negation of a float. -/
def pfNeg : PyFloat → PyFloat
  | .finite a b => .finite (-a) b
  | .inf => .negInf
  | .negInf => .inf
  | .nan => .nan

/-- Float addition: exact on finite values, IEEE rules on specials
(`inf + -inf = nan`, `nan` propagates). -/
def pfAdd : PyFloat → PyFloat → PyFloat
  | .nan, _ => .nan
  | _, .nan => .nan
  | .finite a b, .finite c d => .finite (a * d + c * b) (b * d)
  | .finite _ _, .inf => .inf
  | .finite _ _, .negInf => .negInf
  | .inf, .finite _ _ => .inf
  | .negInf, .finite _ _ => .negInf
  | .inf, .inf => .inf
  | .negInf, .negInf => .negInf
  | .inf, .negInf => .nan
  | .negInf, .inf => .nan

/-- Float subtraction, as `x + (-y)` (agrees with IEEE on all cases). -/
def pfSub (x y : PyFloat) : PyFloat := pfAdd x (pfNeg y)

/-- Float multiplication: exact on finite values; `inf * 0 = nan`, signed
infinities otherwise, `nan` propagates. -/
def pfMul : PyFloat → PyFloat → PyFloat
  | .nan, _ => .nan
  | _, .nan => .nan
  | .finite a b, .finite c d => .finite (a * c) (b * d)
  | .finite a _, .inf => if a > 0 then .inf else if a < 0 then .negInf else .nan
  | .finite a _, .negInf => if a > 0 then .negInf else if a < 0 then .inf else .nan
  | .inf, .finite c _ => if c > 0 then .inf else if c < 0 then .negInf else .nan
  | .negInf, .finite c _ => if c > 0 then .negInf else if c < 0 then .inf else .nan
  | .inf, .inf => .inf
  | .inf, .negInf => .negInf
  | .negInf, .inf => .negInf
  | .negInf, .negInf => .inf

/-- Float division.  The constant folder only divides when the divisor is
not equal to `0` (Python raises `ZeroDivisionError` there); the
finite-zero-divisor branch below is therefore never exercised and is given
the harmless value `nan`. -/
def pfDiv : PyFloat → PyFloat → PyFloat
  | .nan, _ => .nan
  | _, .nan => .nan
  | .finite a b, .finite c d =>
      if c = 0 then .nan
      else if c > 0 then .finite (a * d) (b * c)
      else .finite (-(a * d)) (b * (-c))
  | .finite _ _, .inf => .finite 0 1
  | .finite _ _, .negInf => .finite 0 1
  | .inf, .finite c _ => if c ≥ 0 then .inf else .negInf
  | .negInf, .finite c _ => if c ≥ 0 then .negInf else .inf
  | .inf, .inf => .nan
  | .inf, .negInf => .nan
  | .negInf, .inf => .nan
  | .negInf, .negInf => .nan

/-! ## AST (`src/foolang/ast.py`)

The Python node classes become two mutual inductive families.  Python
lists of child nodes are encoded by the list-shaped inductives `ExprList`
and `StmtList` (so that all traversals are structurally recursive);
`OptBlock` encodes the optional `else` block of `IfStatement`.  A `Block`
node's contents, like `Program`'s, is its statement sequence. -/
mutual
inductive Expr where
  | number (value : PyFloat)
  | stringLit (value : String)
  | boolLit (value : Bool)
  | ident (name : String)
  | binaryOp (left : Expr) (operator : String) (right : Expr)
  | unaryOp (operator : String) (operand : Expr)
  | call (callee : Expr) (arguments : ExprList)
deriving DecidableEq, Repr

inductive ExprList where
  | nil
  | cons (head : Expr) (tail : ExprList)
deriving DecidableEq, Repr
end

mutual
inductive Stmt where
  | letStmt (name : String) (value : Expr)
  | returnStmt (value : Option Expr)
  | exprStmt (expression : Expr)
  | block (statements : StmtList)
  | ifStmt (condition : Expr) (thenBranch : StmtList) (elseBranch : OptBlock)
  | fnDecl (name : String) (params : List String) (body : StmtList)
deriving DecidableEq, Repr

inductive StmtList where
  | nil
  | cons (head : Stmt) (tail : StmtList)
deriving DecidableEq, Repr

inductive OptBlock where
  | none
  | some (b : StmtList)
deriving DecidableEq, Repr
end

/-- The AST root: an ordered list of top-level statements. -/
structure Program where
  statements : List Stmt
deriving DecidableEq, Repr

/-- View of a statement sequence as a Lean list (used only to state
theorems; it is not part of the embedded code). -/
def StmtList.toList : StmtList → List Stmt
  | .nil => []
  | .cons h t => h :: StmtList.toList t

/-! ## Constant folding (`src/foolang/optimizer.py`, class ConstantFolder) -/
/-- ConstantFolder._fold_numeric: evaluates an arithmetic or comparison
operator on two float operands; division is evaluated only when the
divisor is not equal to `0`; an unknown operator yields `none`.  (The
`try/except` around the Python match is dead: none of the float operations
here can raise once the division guard has passed.) -/
def foldNumeric (left : PyFloat) (op : String) (right : PyFloat) :
    Option (Sum PyFloat Bool) :=
  match op with
  | "+" => some (Sum.inl (pfAdd left right))
  | "-" => some (Sum.inl (pfSub left right))
  | "*" => some (Sum.inl (pfMul left right))
  | "/" => if pfNeB right pfZero then some (Sum.inl (pfDiv left right)) else none
  | "<" => some (Sum.inr (pfLtB left right))
  | ">" => some (Sum.inr (pfGtB left right))
  | "<=" => some (Sum.inr (pfLeB left right))
  | ">=" => some (Sum.inr (pfGeB left right))
  | "==" => some (Sum.inr (pfEqB left right))
  | "!=" => some (Sum.inr (pfNeB left right))
  | _ => none

/-- ConstantFolder._fold_bool: `==`/`!=` on two boolean operands. -/
def foldBool (left : Bool) (op : String) (right : Bool) : Option Bool :=
  match op with
  | "==" => some (left == right)
  | "!=" => some (left != right)
  | _ => none

/-- The non-recursive tail of ConstantFolder.visit_binary_op: given the two
already-folded operands, try numeric folding, then string concatenation
(`+` only), then boolean folding, and otherwise rebuild the BinaryOp. -/
def foldBinary (left : Expr) (op : String) (right : Expr) : Expr :=
  match left, right with
  | .number a, .number b =>
      match foldNumeric a op b with
      | Option.some (Sum.inl v) => .number v
      | Option.some (Sum.inr c) => .boolLit c
      | Option.none => .binaryOp left op right
  | .stringLit a, .stringLit b =>
      if op = "+" then .stringLit (a ++ b) else .binaryOp left op right
  | .boolLit a, .boolLit b =>
      match foldBool a op b with
      | Option.some c => .boolLit c
      | Option.none => .binaryOp left op right
  | _, _ => .binaryOp left op right

/-- The non-recursive tail of ConstantFolder.visit_unary_op: given the
already-folded operand, fold unary minus on a number literal to its
negation and rebuild the UnaryOp otherwise. -/
def foldUnary (op : String) (operand : Expr) : Expr :=
  match operand with
  | .number v => if op = "-" then .number (pfNeg v) else .unaryOp op operand
  | _ => .unaryOp op operand

mutual
/-- ConstantFolder's expression visitors: literals and identifiers are
returned unchanged; BinaryOp folds both operands first and then applies
`foldBinary`; UnaryOp folds its operand and applies `foldUnary`; a call
folds callee and arguments. -/
def foldExpr : Expr → Expr
  | .number v => .number v
  | .stringLit s => .stringLit s
  | .boolLit b => .boolLit b
  | .ident n => .ident n
  | .binaryOp l op r => foldBinary (foldExpr l) op (foldExpr r)
  | .unaryOp op operand => foldUnary op (foldExpr operand)
  | .call c args => .call (foldExpr c) (foldExprList args)
termination_by structural e => e

/-- Folding of a call's argument list. -/
def foldExprList : ExprList → ExprList
  | .nil => .nil
  | .cons h t => .cons (foldExpr h) (foldExprList t)
termination_by structural l => l
end

/-- The non-recursive tail of ConstantFolder.visit_if: given the folded
condition, then-branch and optional else-branch, an `if` whose condition
folded to a boolean literal is replaced by its then-branch (if true) or
its else-branch (if false and present) or an empty block (if false and
absent); otherwise the IfStatement is rebuilt. -/
def foldIfTail (c : Expr) (t : StmtList) (e : OptBlock) : Stmt :=
  match c with
  | .boolLit true => .block t
  | .boolLit false =>
      match e with
      | .some b => .block b
      | .none => .block .nil
  | _ => .ifStmt c t e

mutual
/-- ConstantFolder's statement visitors.  An `if` folds its condition and
both branches first and then applies `foldIfTail`. -/
def foldStmt : Stmt → Stmt
  | .letStmt n v => .letStmt n (foldExpr v)
  | .returnStmt v => .returnStmt (v.map foldExpr)
  | .exprStmt e => .exprStmt (foldExpr e)
  | .block ss => .block (foldStmtList ss)
  | .ifStmt c t e => foldIfTail (foldExpr c) (foldStmtList t) (foldOptBlock e)
  | .fnDecl n ps b => .fnDecl n ps (foldStmtList b)
termination_by structural s => s

/-- Folding of a statement sequence (ConstantFolder.visit_block). -/
def foldStmtList : StmtList → StmtList
  | .nil => .nil
  | .cons h t => .cons (foldStmt h) (foldStmtList t)
termination_by structural l => l

/-- Folding of an optional else block. -/
def foldOptBlock : OptBlock → OptBlock
  | .none => .none
  | .some b => .some (foldStmtList b)
termination_by structural o => o
end

/-- ConstantFolder.optimize / visit_program: folds every top-level
statement. -/
def foldProgram (p : Program) : Program := ⟨p.statements.map foldStmt⟩

/-! ## Dead-code elimination (`src/foolang/optimizer.py`, class DeadCodeEliminator)

The Python pass keeps a `usages` dictionary of per-name `UsageInfo{defined,
used}` records.  `_is_used` reads only the `used` flag (plus the built-in
names), so the collection phase is modelled as computing the list of names
marked used; the `defined` flag is recorded by the Python code but never
consulted and is not modelled. -/
mutual
/-- Collection phase over an expression: visit_identifier marks every
identifier occurrence used; visit_binary_op, visit_unary_op and visit_call
visit all children. -/
def usedInExpr : Expr → List String
  | .number _ => []
  | .stringLit _ => []
  | .boolLit _ => []
  | .ident n => [n]
  | .binaryOp l _ r => usedInExpr l ++ usedInExpr r
  | .unaryOp _ o => usedInExpr o
  | .call c args => usedInExpr c ++ usedInExprList args
termination_by structural e => e

/-- Collection phase over a call's argument list. -/
def usedInExprList : ExprList → List String
  | .nil => []
  | .cons h t => usedInExpr h ++ usedInExprList t
termination_by structural l => l
end

mutual
/-- Collection phase over a statement: visit_let visits the initializer,
visit_fn marks every parameter used and visits the body, visit_if visits
the condition and both branches. -/
def usedInStmt : Stmt → List String
  | .letStmt _ v => usedInExpr v
  | .returnStmt (Option.some e) => usedInExpr e
  | .returnStmt Option.none => []
  | .exprStmt e => usedInExpr e
  | .block ss => usedInStmtList ss
  | .ifStmt c t e => usedInExpr c ++ usedInStmtList t ++ usedInOptBlock e
  | .fnDecl _ ps b => ps ++ usedInStmtList b
termination_by structural s => s

/-- Collection phase over a statement sequence. -/
def usedInStmtList : StmtList → List String
  | .nil => []
  | .cons h t => usedInStmt h ++ usedInStmtList t
termination_by structural l => l

/-- Collection phase over an optional else block. -/
def usedInOptBlock : OptBlock → List String
  | .none => []
  | .some b => usedInStmtList b
termination_by structural o => o
end

/-- Collection phase over a list of top-level statements. -/
def usedInStmts : List Stmt → List String
  | [] => []
  | s :: rest => usedInStmt s ++ usedInStmts rest

/-- The names marked used by the collection pass over the whole program
(DeadCodeEliminator.optimize, first pass). -/
def usedNames (p : Program) : List String := usedInStmts p.statements

/-- DeadCodeEliminator._is_used: the built-in names `print` and `console`
are always considered used; otherwise a name is used iff the collection
pass marked it. -/
def isUsed (used : List String) (n : String) : Bool :=
  n == "print" || n == "console" || used.contains n

mutual
/-- Elimination phase for one statement: a `let` or `fn` whose name is
unused is dropped (`none`); a surviving `fn`'s body and the branches of an
`if` are pruned recursively; every other statement is kept unchanged. -/
def elimStmt (u : List String) : Stmt → Option Stmt
  | .letStmt n v => if isUsed u n then Option.some (.letStmt n v) else Option.none
  | .returnStmt v => Option.some (.returnStmt v)
  | .exprStmt e => Option.some (.exprStmt e)
  | .block ss => Option.some (.block (elimStmtList u ss))
  | .ifStmt c t e => Option.some (.ifStmt c (elimStmtList u t) (elimOptBlock u e))
  | .fnDecl n ps b =>
      if isUsed u n then Option.some (.fnDecl n ps (elimStmtList u b)) else Option.none
termination_by structural s => s

/-- Elimination phase for a statement sequence (visit_block, second
phase): dropped statements simply disappear from the sequence. -/
def elimStmtList (u : List String) : StmtList → StmtList
  | .nil => .nil
  | .cons h t =>
      match elimStmt u h with
      | Option.some s => .cons s (elimStmtList u t)
      | Option.none => elimStmtList u t
termination_by structural l => l

/-- Elimination phase for an optional else block. -/
def elimOptBlock (u : List String) : OptBlock → OptBlock
  | .none => .none
  | .some b => .some (elimStmtList u b)
termination_by structural o => o
end

/-- DeadCodeEliminator.optimize: one collection pass over the whole input
program computes the used-name facts, then one elimination pass over the
same input program drops the unused `let`/`fn` declarations. -/
def dce (p : Program) : Program :=
  ⟨p.statements.filterMap (elimStmt (usedNames p))⟩

/-! Syntactic identifier references and parameter names, used to state the
dead-code theorems (they are not part of the embedded code). -/
mutual
/-- Names occurring as an Identifier expression anywhere in a statement. -/
def identsInStmt : Stmt → List String
  | .letStmt _ v => usedInExpr v
  | .returnStmt (Option.some e) => usedInExpr e
  | .returnStmt Option.none => []
  | .exprStmt e => usedInExpr e
  | .block ss => identsInStmtList ss
  | .ifStmt c t e => usedInExpr c ++ identsInStmtList t ++ identsInOptBlock e
  | .fnDecl _ _ b => identsInStmtList b
termination_by structural s => s

/-- Identifier occurrences in a statement sequence. -/
def identsInStmtList : StmtList → List String
  | .nil => []
  | .cons h t => identsInStmt h ++ identsInStmtList t
termination_by structural l => l

/-- Identifier occurrences in an optional else block. -/
def identsInOptBlock : OptBlock → List String
  | .none => []
  | .some b => identsInStmtList b
termination_by structural o => o
end

mutual
/-- Function parameter names declared anywhere in a statement. -/
def paramsInStmt : Stmt → List String
  | .letStmt _ _ => []
  | .returnStmt _ => []
  | .exprStmt _ => []
  | .block ss => paramsInStmtList ss
  | .ifStmt _ t e => paramsInStmtList t ++ paramsInOptBlock e
  | .fnDecl _ ps b => ps ++ paramsInStmtList b
termination_by structural s => s

/-- Parameter names in a statement sequence. -/
def paramsInStmtList : StmtList → List String
  | .nil => []
  | .cons h t => paramsInStmt h ++ paramsInStmtList t
termination_by structural l => l

/-- Parameter names in an optional else block. -/
def paramsInOptBlock : OptBlock → List String
  | .none => []
  | .some b => paramsInStmtList b
termination_by structural o => o
end

/-- Identifier occurrences in a list of top-level statements. -/
def identsInStmts : List Stmt → List String
  | [] => []
  | s :: rest => identsInStmt s ++ identsInStmts rest

/-- Parameter names in a list of top-level statements. -/
def paramsInStmts : List Stmt → List String
  | [] => []
  | s :: rest => paramsInStmt s ++ paramsInStmts rest

/-- Names occurring as an Identifier anywhere in the program. -/
def identRefs (p : Program) : List String := identsInStmts p.statements

/-- Function parameter names declared anywhere in the program. -/
def paramNames (p : Program) : List String := paramsInStmts p.statements

/-! ## The optimizer driver (`src/foolang/optimizer.py`, class Optimizer) -/
/-- Optimizer.__init__/optimize: the pass list holds the constant folder
when `enable_constant_folding` is set and the dead-code eliminator when
`enable_dead_code` is set, in that fixed order; `optimize` threads the
program through the passes. -/
def optimize (enableConstantFolding enableDeadCode : Bool) (p : Program) : Program :=
  let afterFold := if enableConstantFolding then foldProgram p else p
  if enableDeadCode then dce afterFold else afterFold

/-! ## Code generation (`src/foolang/codegen.py`, class CodeGenerator)

The Python visitor returns strings and contains no `raise` statement, but
`visit_number` evaluates `int(node.value)`, which raises `OverflowError`
when the value is an infinity and `ValueError` when it is `nan`; the
embedding therefore runs in `Except GenErr`. -/
inductive GenErr where
  | overflowError
  | nanError
deriving DecidableEq, Repr

/-- Decimal digit characters of a positive natural number, most
significant first (`fuel` bounds the recursion and is always sufficient). -/
def natDigitsAux : Nat → Nat → List Char
  | 0, _ => []
  | fuel + 1, n =>
      if n = 0 then [] else natDigitsAux fuel (n / 10) ++ [Char.ofNat (48 + n % 10)]

/-- Decimal rendering of a natural number. -/
def natRepr (n : Nat) : String := if n = 0 then "0" else ⟨natDigitsAux (n + 1) n⟩

/-- Decimal rendering of an integer (Python `str(int)`). -/
def intRepr : Int → String
  | .ofNat n => natRepr n
  | .negSucc m => "-" ++ natRepr (m + 1)

/-- Rendering of a non-integral finite float value.  Python prints
`str(node.value)` (the shortest round-tripping decimal); the exact text is
irrelevant to every verified property, which only needs generation to
succeed, so the model renders the exact fraction. -/
def fracRepr (a b : Int) : String := intRepr a ++ "/" ++ intRepr b

/-- CodeGenerator.visit_number: Python computes `int(node.value)` — which
raises OverflowError on ±infinity and ValueError on `nan` — and prints the
value without a decimal point when it equals its truncation. -/
def visitNumber : PyFloat → Except GenErr String
  | .finite a b =>
      if a % b == 0 then Except.ok (intRepr (a / b)) else Except.ok (fracRepr a b)
  | .inf => Except.error .overflowError
  | .negInf => Except.error .overflowError
  | .nan => Except.error .nanError

/-- Replacement of every occurrence of one character by a character
sequence (Python `str.replace` with a single-character needle). -/
def replaceChar (c : Char) (r : List Char) : List Char → List Char
  | [] => []
  | x :: xs => (if x = c then r else [x]) ++ replaceChar c r xs

/-- CodeGenerator.visit_string: sequentially replace backslash, double
quote and newline by their two-character escape forms, then wrap in double
quotes. -/
def escapeString (s : String) : String :=
  let l1 := replaceChar '\\' ['\\', '\\'] s.data
  let l2 := replaceChar '"' ['\\', '"'] l1
  let l3 := replaceChar '\n' ['\\', 'n'] l2
  "\"" ++ String.mk l3 ++ "\""

/-- Python `sep.join(items)`. -/
def joinSep (sep : String) : List String → String
  | [] => ""
  | [x] => x
  | x :: xs => x ++ sep ++ joinSep sep xs

/-- Joining of generated statement lines: visit_program and visit_block
append only truthy (non-empty) line strings before joining with newlines. -/
def filterJoin (lines : List String) : String :=
  joinSep "\n" (lines.filter (fun s => !(s == "")))

/-- CodeGenerator._indent: the fixed two-space indent unit repeated once
per level. -/
def indentStr : Nat → String
  | 0 => ""
  | lvl + 1 => "  " ++ indentStr lvl

mutual
/-- CodeGenerator's expression visitors.  visit_call generates the callee
text first and then rewrites it to `console.log` exactly when it equals
the string `print` (a literal text substitution, not a semantic
analysis). -/
def genExpr : Expr → Except GenErr String
  | .number v => visitNumber v
  | .stringLit s => Except.ok (escapeString s)
  | .boolLit b => Except.ok (if b then "true" else "false")
  | .ident n => Except.ok n
  | .binaryOp l op r => do
      let ls ← genExpr l
      let rs ← genExpr r
      pure ("(" ++ ls ++ " " ++ op ++ " " ++ rs ++ ")")
  | .unaryOp op o => do
      let os ← genExpr o
      pure ("(" ++ op ++ os ++ ")")
  | .call c args => do
      let cs ← genExpr c
      let callee := if cs = "print" then "console.log" else cs
      let argL ← genArgList args
      pure (callee ++ "(" ++ joinSep ", " argL ++ ")")
termination_by structural e => e

/-- Generation of a call's argument texts, in order. -/
def genArgList : ExprList → Except GenErr (List String)
  | .nil => Except.ok []
  | .cons h t => do
      let hs ← genExpr h
      let ts ← genArgList t
      pure (hs :: ts)
termination_by structural l => l
end

mutual
/-- CodeGenerator's statement visitors.  A bare block keeps the current
indent level; `if`/`else` bodies and function bodies are generated one
level deeper between braces. -/
def genStmt (lvl : Nat) : Stmt → Except GenErr String
  | .letStmt n v => do
      let vs ← genExpr v
      pure (indentStr lvl ++ "let " ++ n ++ " = " ++ vs ++ ";")
  | .returnStmt (Option.some e) => do
      let es ← genExpr e
      pure (indentStr lvl ++ "return " ++ es ++ ";")
  | .returnStmt Option.none => Except.ok (indentStr lvl ++ "return;")
  | .exprStmt e => do
      let es ← genExpr e
      pure (indentStr lvl ++ es ++ ";")
  | .block ss => do
      let lines ← genStmtLines lvl ss
      pure (filterJoin lines)
  | .ifStmt c t e => do
      let cs ← genExpr c
      let thenLines ← genStmtLines (lvl + 1) t
      let baseIndent := indentStr lvl
      let head := baseIndent ++ "if (" ++ cs ++ ") \x7b\n" ++ filterJoin thenLines
          ++ "\n" ++ baseIndent ++ "\x7d"
      match e with
      | OptBlock.none => pure head
      | OptBlock.some b => do
          let elseLines ← genStmtLines (lvl + 1) b
          pure (head ++ " else \x7b\n" ++ filterJoin elseLines ++ "\n" ++ baseIndent ++ "\x7d")
  | .fnDecl n ps b => do
      let body ← genStmtLines (lvl + 1) b
      let baseIndent := indentStr lvl
      pure (baseIndent ++ "function " ++ n ++ "(" ++ joinSep ", " ps ++ ") \x7b\n"
          ++ filterJoin body ++ "\n" ++ baseIndent ++ "\x7d")
termination_by structural s => s

/-- Generation of the lines of a statement sequence. -/
def genStmtLines (lvl : Nat) : StmtList → Except GenErr (List String)
  | .nil => Except.ok []
  | .cons h t => do
      let hs ← genStmt lvl h
      let ts ← genStmtLines lvl t
      pure (hs :: ts)
termination_by structural l => l
end

/-- Generation of the lines of the top-level statement list. -/
def genStmts (lvl : Nat) : List Stmt → Except GenErr (List String)
  | [] => Except.ok []
  | s :: rest => do
      let hs ← genStmt lvl s
      let ts ← genStmts lvl rest
      pure (hs :: ts)

/-- CodeGenerator.generate / visit_program: generate every top-level
statement at indent level 0 and join the non-empty lines with newlines. -/
def generate (p : Program) : Except GenErr String := do
  let lines ← genStmts 0 p.statements
  pure (filterJoin lines)

/-! ## Finiteness of the number literals in a tree -/
mutual
/-- Whether every NumberLiteral in an expression carries a finite value. -/
def exprNumsFinite : Expr → Bool
  | .number (.finite _ _) => true
  | .number _ => false
  | .stringLit _ => true
  | .boolLit _ => true
  | .ident _ => true
  | .binaryOp l _ r => exprNumsFinite l && exprNumsFinite r
  | .unaryOp _ o => exprNumsFinite o
  | .call c args => exprNumsFinite c && exprListNumsFinite args
termination_by structural e => e

/-- Finiteness of the number literals of an argument list. -/
def exprListNumsFinite : ExprList → Bool
  | .nil => true
  | .cons h t => exprNumsFinite h && exprListNumsFinite t
termination_by structural l => l
end

mutual
/-- Whether every NumberLiteral in a statement carries a finite value. -/
def stmtNumsFinite : Stmt → Bool
  | .letStmt _ v => exprNumsFinite v
  | .returnStmt (Option.some e) => exprNumsFinite e
  | .returnStmt Option.none => true
  | .exprStmt e => exprNumsFinite e
  | .block ss => stmtListNumsFinite ss
  | .ifStmt c t e => exprNumsFinite c && stmtListNumsFinite t && optBlockNumsFinite e
  | .fnDecl _ _ b => stmtListNumsFinite b
termination_by structural s => s

/-- Finiteness of the number literals of a statement sequence. -/
def stmtListNumsFinite : StmtList → Bool
  | .nil => true
  | .cons h t => stmtNumsFinite h && stmtListNumsFinite t
termination_by structural l => l

/-- Finiteness of the number literals of an optional else block. -/
def optBlockNumsFinite : OptBlock → Bool
  | .none => true
  | .some b => stmtListNumsFinite b
termination_by structural o => o
end

/-- Whether every NumberLiteral in the program carries a finite value. -/
def progNumsFinite (p : Program) : Bool := p.statements.all stmtNumsFinite

/-! ## Lexer (`src/foolang/lexer.py`)

The scanner is a single left-to-right pass; every loop in the Python code
is modelled as a fuel-indexed recursion, the fuel being derived from the
remaining input length and always sufficient (each loop iteration advances
the position).  Python's `str.isdigit`, `str.isalpha` and `str.isalnum`
are modelled by the ASCII classifiers `Char.isDigit`, `Char.isAlpha` and
`Char.isAlphanum`; the sources under test are ASCII. -/
inductive TokenType where
  | NUMBER | STRING | IDENT
  | LET | FN | RETURN | IF | ELSE | TRUE | FALSE
  | PLUS | MINUS | STAR | SLASH
  | EQ | EQEQ | NEQ | LT | GT | LTEQ | GTEQ
  | LPAREN | RPAREN | LBRACE | RBRACE | COMMA
  | EOF
deriving DecidableEq, Repr

structure Token where
  type : TokenType
  value : String
  line : Nat
  column : Nat
deriving DecidableEq, Repr

inductive LexErr where
  | lexerError (message : String) (line : Nat) (column : Nat)
deriving DecidableEq, Repr

/-- Lexer scanning state: the fixed source characters, the current
position and the 1-based line/column counters. -/
structure LexState where
  source : List Char
  pos : Nat
  line : Nat
  column : Nat
deriving DecidableEq, Repr

/-- Lexer._is_at_end. -/
def LexState.isAtEnd (st : LexState) : Bool := st.source.length ≤ st.pos

/-- Lexer._peek (the Python method returns `"\0"` past the end). -/
def LexState.peek (st : LexState) : Char := st.source.getD st.pos '\x00'

/-- Lexer._peek_next. -/
def LexState.peekNext (st : LexState) : Char := st.source.getD (st.pos + 1) '\x00'

/-- Lexer._advance: returns the consumed character and the advanced state;
a newline bumps the line counter and resets the column.  (Python indexes
`source[pos]` unguarded; `_advance` is only ever called when not at the
end, where the default character here is never consulted.) -/
def LexState.advance (st : LexState) : Char × LexState :=
  let c := st.source.getD st.pos '\x00'
  if c = '\n' then (c, ⟨st.source, st.pos + 1, st.line + 1, 1⟩)
  else (c, ⟨st.source, st.pos + 1, st.line, st.column + 1⟩)

/-- Lexer._match: consume the next character iff it equals `expected`. -/
def lexMatch (expected : Char) (st : LexState) : Bool × LexState :=
  if st.isAtEnd || st.peek ≠ expected then (false, st)
  else (true, (st.advance).2)

/-- The inner loop of the comment branch of
Lexer._skip_whitespace_and_comments: consume to the end of the line. -/
def skipLineComment : Nat → LexState → LexState
  | 0, st => st
  | fuel + 1, st =>
      if !st.isAtEnd && st.peek ≠ '\n' then skipLineComment fuel (st.advance).2
      else st

/-- Lexer._skip_whitespace_and_comments: skip spaces, tabs, carriage
returns, newlines and `//` comments. -/
def skipWhitespaceAndComments : Nat → LexState → LexState
  | 0, st => st
  | fuel + 1, st =>
      if st.isAtEnd then st
      else if st.peek = ' ' || st.peek = '\t' || st.peek = '\r' then
        skipWhitespaceAndComments fuel (st.advance).2
      else if st.peek = '\n' then
        skipWhitespaceAndComments fuel (st.advance).2
      else if st.peek = '/' && st.peekNext = '/' then
        skipWhitespaceAndComments fuel (skipLineComment (st.source.length + 1) st)
      else st

/-- Lexer._string's scanning loop and epilogue: consume up to the closing
quote, rejecting embedded newlines and end of input. -/
def lexString (startLine startCol : Nat) : Nat → LexState → String →
    Except LexErr (Token × LexState)
  | 0, _, _ => Except.error (.lexerError "Unterminated string" startLine startCol)
  | fuel + 1, st, value =>
      if !st.isAtEnd && st.peek ≠ '"' then
        if st.peek = '\n' then
          Except.error (.lexerError "Unterminated string" startLine startCol)
        else
          let (c, st') := st.advance
          lexString startLine startCol fuel st' (value.push c)
      else if st.isAtEnd then
        Except.error (.lexerError "Unterminated string" startLine startCol)
      else
        Except.ok (⟨.STRING, value, startLine, startCol⟩, (st.advance).2)

/-- Lexer._number's scanning loop: greedily consume digits and `.`
characters with no validation of digit placement. -/
def numberLoop : Nat → LexState → String → String × LexState
  | 0, st, value => (value, st)
  | fuel + 1, st, value =>
      if !st.isAtEnd && (st.peek.isDigit || st.peek = '.') then
        let (c, st') := st.advance
        numberLoop fuel st' (value.push c)
      else (value, st)

/-- Lexer._identifier's scanning loop: consume alphanumerics and
underscores. -/
def identLoop : Nat → LexState → String → String × LexState
  | 0, st, value => (value, st)
  | fuel + 1, st, value =>
      if !st.isAtEnd && (st.peek.isAlphanum || st.peek = '_') then
        let (c, st') := st.advance
        identLoop fuel st' (value.push c)
      else (value, st)

/-- The KEYWORDS table: an identifier spelling one of the fixed keywords
is reclassified. -/
def keywordType (s : String) : TokenType :=
  match s with
  | "let" => .LET
  | "fn" => .FN
  | "return" => .RETURN
  | "if" => .IF
  | "else" => .ELSE
  | "true" => .TRUE
  | "false" => .FALSE
  | _ => .IDENT

/-- The single_char_tokens dictionary in Lexer._next_token. -/
def singleCharToken (c : Char) : Option TokenType :=
  if c = '(' then Option.some .LPAREN
  else if c = ')' then Option.some .RPAREN
  else if c = '\x7b' then Option.some .LBRACE
  else if c = '\x7d' then Option.some .RBRACE
  else if c = ',' then Option.some .COMMA
  else if c = '+' then Option.some .PLUS
  else if c = '-' then Option.some .MINUS
  else if c = '*' then Option.some .STAR
  else if c = '/' then Option.some .SLASH
  else Option.none

/-- Lexer._next_token: skip whitespace/comments, then scan one token, or
return `none` at the end of input, or fail on an unexpected character /
unterminated string. -/
def nextToken (st : LexState) : Except LexErr (Option Token × LexState) :=
  let st := skipWhitespaceAndComments (st.source.length + 1) st
  if st.isAtEnd then Except.ok (Option.none, st)
  else
    let startLine := st.line
    let startCol := st.column
    let c := (st.advance).1
    let st1 := (st.advance).2
    let fuel := st1.source.length + 1
    match singleCharToken c with
    | Option.some ty => Except.ok (Option.some ⟨ty, c.toString, startLine, startCol⟩, st1)
    | Option.none =>
      if c = '=' then
        if (lexMatch '=' st1).1 then
          Except.ok (Option.some ⟨.EQEQ, "==", startLine, startCol⟩, (lexMatch '=' st1).2)
        else Except.ok (Option.some ⟨.EQ, "=", startLine, startCol⟩, (lexMatch '=' st1).2)
      else if c = '!' then
        if (lexMatch '=' st1).1 then
          Except.ok (Option.some ⟨.NEQ, "!=", startLine, startCol⟩, (lexMatch '=' st1).2)
        else Except.error (.lexerError ("Unexpected character: " ++ c.toString) startLine startCol)
      else if c = '<' then
        if (lexMatch '=' st1).1 then
          Except.ok (Option.some ⟨.LTEQ, "<=", startLine, startCol⟩, (lexMatch '=' st1).2)
        else Except.ok (Option.some ⟨.LT, "<", startLine, startCol⟩, (lexMatch '=' st1).2)
      else if c = '>' then
        if (lexMatch '=' st1).1 then
          Except.ok (Option.some ⟨.GTEQ, ">=", startLine, startCol⟩, (lexMatch '=' st1).2)
        else Except.ok (Option.some ⟨.GT, ">", startLine, startCol⟩, (lexMatch '=' st1).2)
      else if c = '"' then
        (lexString startLine startCol fuel st1 "").map (fun r => (Option.some r.1, r.2))
      else if c.isDigit then
        Except.ok (Option.some ⟨.NUMBER, (numberLoop fuel st1 c.toString).1, startLine, startCol⟩,
          (numberLoop fuel st1 c.toString).2)
      else if c.isAlpha || c = '_' then
        Except.ok (Option.some ⟨keywordType (identLoop fuel st1 c.toString).1,
          (identLoop fuel st1 c.toString).1, startLine, startCol⟩,
          (identLoop fuel st1 c.toString).2)
      else
        Except.error (.lexerError ("Unexpected character: " ++ c.toString) startLine startCol)

/-- Lexer.tokenize's scanning loop: repeatedly take the next token until
the end of input. -/
def tokenizeLoop : Nat → LexState → Except LexErr (List Token × LexState)
  | 0, st => Except.ok ([], st)
  | fuel + 1, st =>
      if st.isAtEnd then Except.ok ([], st)
      else
        match nextToken st with
        | Except.error e => Except.error e
        | Except.ok (opt, st') =>
            match tokenizeLoop fuel st' with
            | Except.error e => Except.error e
            | Except.ok (toks, st'') => Except.ok (opt.toList ++ toks, st'')

/-- Lexer.tokenize: scan the whole source and append the final EOF token
carrying the end position. -/
def tokenize (source : String) : Except LexErr (List Token) :=
  match tokenizeLoop (source.length + 1) ⟨source.data, 0, 1, 1⟩ with
  | Except.error e => Except.error e
  | Except.ok (toks, st') => Except.ok (toks ++ [⟨.EOF, "", st'.line, st'.column⟩])

/-! ## Parser (`src/foolang/parser.py`)

Recursive descent with precedence climbing.  The parser state is the fixed
token list plus a position; every Python method becomes a fuel-indexed
function (the fuel models the recursion depth, is decremented on every
call, and the top-level allowance is always sufficient for the inputs
evaluated here).  `_primary` converts a NUMBER token with
`float(token.value)`: CPython raises `ValueError` when the greedy-scanned
text is not a valid float literal (e.g. `"1.2.3"`), and that exception
escapes `parse` — the embedding surfaces it as `ParseErr.valueError`. -/
inductive ParseErr where
  | parseError (message : String) (token : Token)
  | valueError (text : String)
  | outOfFuel
deriving DecidableEq, Repr

/-- Decimal digits to a natural number. -/
def digitsToNat (l : List Char) : Nat :=
  l.foldl (fun acc c => acc * 10 + (c.toNat - 48)) 0

/-- Model of CPython `float(text)` on the token texts this compiler can
produce: an optional sign followed by digits containing at most one `.`
and at least one digit converts to the exact decimal value; anything else
(in particular a second `.`, as in `"1.2.3"`) raises ValueError, modelled
as `none`.  (CPython additionally accepts exponents, `inf`/`nan` spellings
and surrounding whitespace, and overflows very long digit runs to `inf`;
no lexer NUMBER text uses those shapes and no claim below depends on
them.) -/
def pyFloatOfString (s : String) : Option PyFloat :=
  let signed : Bool × List Char :=
    match s.data with
    | '-' :: cs => (true, cs)
    | '+' :: cs => (false, cs)
    | cs => (false, cs)
  let neg := signed.1
  let chars := signed.2
  if chars.isEmpty then Option.none
  else if chars.all (fun c => c.isDigit || c = '.') then
    if (chars.filter (fun c => c = '.')).length ≤ 1 ∧ chars.any Char.isDigit then
      let intPart := chars.takeWhile (fun c => c ≠ '.')
      let fracPart := (chars.dropWhile (fun c => c ≠ '.')).drop 1
      let den : Int := Int.ofNat (10 ^ fracPart.length)
      let mag : Int := Int.ofNat (digitsToNat intPart * 10 ^ fracPart.length
        + digitsToNat fracPart)
      Option.some (.finite (if neg then -mag else mag) den)
    else Option.none
  else Option.none

/-- Parser._peek: the token at the current position.  (Python indexes
`self.tokens[self.pos]` unguarded; on every token list `tokenize` can
produce — always EOF-terminated — the position never passes the EOF token,
so the default below is never consulted.) -/
def peekT (toks : List Token) (pos : Nat) : Token :=
  toks.getD pos ⟨.EOF, "", 0, 0⟩

/-- Parser._is_at_end: true at the EOF token. -/
def isAtEndT (toks : List Token) (pos : Nat) : Bool :=
  (peekT toks pos).type == .EOF

/-- Parser._check: the current token has the given type (false at EOF). -/
def checkT (toks : List Token) (pos : Nat) (ty : TokenType) : Bool :=
  if isAtEndT toks pos then false else (peekT toks pos).type == ty

/-- Parser._consume: advance past a token of the expected type or raise a
ParseError carrying the message and the offending token. -/
def consumeT (toks : List Token) (pos : Nat) (ty : TokenType) (message : String) :
    Except ParseErr (Token × Nat) :=
  if checkT toks pos ty then Except.ok (peekT toks pos, pos + 1)
  else Except.error (.parseError message (peekT toks pos))

/-- Conversion of an accumulated argument list. -/
def listToExprList : List Expr → ExprList
  | [] => .nil
  | e :: rest => .cons e (listToExprList rest)

mutual
/-- Parser.parse's statement loop: gather declarations until EOF.
(The Python loop's `if stmt:` test never skips — `_declaration` always
returns a truthy statement object.) -/
def pProgram : Nat → List Token → Nat → Except ParseErr (List Stmt × Nat)
  | 0, _, _ => Except.error .outOfFuel
  | fuel + 1, toks, pos =>
      if isAtEndT toks pos then Except.ok ([], pos)
      else
        match pDeclaration fuel toks pos with
        | Except.error e => Except.error e
        | Except.ok (s, pos') =>
            match pProgram fuel toks pos' with
            | Except.error e => Except.error e
            | Except.ok (rest, pos'') => Except.ok (s :: rest, pos'')
termination_by structural fuel toks pos => fuel

/-- Parser._declaration: `fn`, `let`, or a generic statement. -/
def pDeclaration : Nat → List Token → Nat → Except ParseErr (Stmt × Nat)
  | 0, _, _ => Except.error .outOfFuel
  | fuel + 1, toks, pos =>
      if checkT toks pos .FN then pFnDeclaration fuel toks (pos + 1)
      else if checkT toks pos .LET then pLetStatement fuel toks (pos + 1)
      else pStatement fuel toks pos
termination_by structural fuel toks pos => fuel

/-- Parser._fn_declaration (after the `fn` keyword). -/
def pFnDeclaration : Nat → List Token → Nat → Except ParseErr (Stmt × Nat)
  | 0, _, _ => Except.error .outOfFuel
  | fuel + 1, toks, pos =>
      match consumeT toks pos .IDENT "Expected function name" with
      | Except.error e => Except.error e
      | Except.ok (nameTok, p1) =>
      match consumeT toks p1 .LPAREN "Expected '(' after function name" with
      | Except.error e => Except.error e
      | Except.ok (_, p2) =>
      match
        (if checkT toks p2 .RPAREN then Except.ok (([] : List String), p2)
         else
           match consumeT toks p2 .IDENT "Expected parameter name" with
           | Except.error e => Except.error e
           | Except.ok (firstTok, p3) => pParamsLoop fuel toks p3 [firstTok.value]) with
      | Except.error e => Except.error e
      | Except.ok (params, p4) =>
      match consumeT toks p4 .RPAREN "Expected ')' after parameters" with
      | Except.error e => Except.error e
      | Except.ok (_, p5) =>
      match consumeT toks p5 .LBRACE "Expected '\x7b' before function body" with
      | Except.error e => Except.error e
      | Except.ok (_, p6) =>
      match pBlock fuel toks p6 with
      | Except.error e => Except.error e
      | Except.ok (body, p7) => Except.ok (.fnDecl nameTok.value params body, p7)
termination_by structural fuel toks pos => fuel

/-- The parameter-list loop of Parser._fn_declaration: while a comma
follows, consume another parameter name. -/
def pParamsLoop : Nat → List Token → Nat → List String → Except ParseErr (List String × Nat)
  | 0, _, _, _ => Except.error .outOfFuel
  | fuel + 1, toks, pos, acc =>
      if checkT toks pos .COMMA then
        match consumeT toks (pos + 1) .IDENT "Expected parameter name" with
        | Except.error e => Except.error e
        | Except.ok (tok, p') => pParamsLoop fuel toks p' (acc ++ [tok.value])
      else Except.ok (acc, pos)
termination_by structural fuel toks pos acc => fuel

/-- Parser._let_statement (after the `let` keyword). -/
def pLetStatement : Nat → List Token → Nat → Except ParseErr (Stmt × Nat)
  | 0, _, _ => Except.error .outOfFuel
  | fuel + 1, toks, pos =>
      match consumeT toks pos .IDENT "Expected variable name" with
      | Except.error e => Except.error e
      | Except.ok (nameTok, p1) =>
      match consumeT toks p1 .EQ "Expected '=' after variable name" with
      | Except.error e => Except.error e
      | Except.ok (_, p2) =>
      match pExpression fuel toks p2 with
      | Except.error e => Except.error e
      | Except.ok (value, p3) => Except.ok (.letStmt nameTok.value value, p3)

/-- Parser._statement: `return`, `if`, a bare block, or an expression
statement. -/
def pStatement : Nat → List Token → Nat → Except ParseErr (Stmt × Nat)
  | 0, _, _ => Except.error .outOfFuel
  | fuel + 1, toks, pos =>
      if checkT toks pos .RETURN then pReturnStatement fuel toks (pos + 1)
      else if checkT toks pos .IF then pIfStatement fuel toks (pos + 1)
      else if checkT toks pos .LBRACE then
        match pBlock fuel toks (pos + 1) with
        | Except.error e => Except.error e
        | Except.ok (ss, p') => Except.ok (.block ss, p')
      else
        match pExpression fuel toks pos with
        | Except.error e => Except.error e
        | Except.ok (e, p') => Except.ok (.exprStmt e, p')
termination_by structural fuel toks pos => fuel

/-- Parser._return_statement (after the `return` keyword): the value is
omitted when the next token closes the block or is end-of-input. -/
def pReturnStatement : Nat → List Token → Nat → Except ParseErr (Stmt × Nat)
  | 0, _, _ => Except.error .outOfFuel
  | fuel + 1, toks, pos =>
      if !(checkT toks pos .RBRACE) && !(isAtEndT toks pos) then
        match pExpression fuel toks pos with
        | Except.error e => Except.error e
        | Except.ok (e, p') => Except.ok (.returnStmt (Option.some e), p')
      else Except.ok (.returnStmt Option.none, pos)

/-- Parser._if_statement (after the `if` keyword). -/
def pIfStatement : Nat → List Token → Nat → Except ParseErr (Stmt × Nat)
  | 0, _, _ => Except.error .outOfFuel
  | fuel + 1, toks, pos =>
      match consumeT toks pos .LPAREN "Expected '(' after 'if'" with
      | Except.error e => Except.error e
      | Except.ok (_, p1) =>
      match pExpression fuel toks p1 with
      | Except.error e => Except.error e
      | Except.ok (condition, p2) =>
      match consumeT toks p2 .RPAREN "Expected ')' after condition" with
      | Except.error e => Except.error e
      | Except.ok (_, p3) =>
      match consumeT toks p3 .LBRACE "Expected '\x7b' after if condition" with
      | Except.error e => Except.error e
      | Except.ok (_, p4) =>
      match pBlock fuel toks p4 with
      | Except.error e => Except.error e
      | Except.ok (thenBranch, p5) =>
      if checkT toks p5 .ELSE then
        match consumeT toks (p5 + 1) .LBRACE "Expected '\x7b' after 'else'" with
        | Except.error e => Except.error e
        | Except.ok (_, p6) =>
        match pBlock fuel toks p6 with
        | Except.error e => Except.error e
        | Except.ok (elseBranch, p7) =>
            Except.ok (.ifStmt condition thenBranch (OptBlock.some elseBranch), p7)
      else Except.ok (.ifStmt condition thenBranch OptBlock.none, p5)
termination_by structural fuel toks pos => fuel

/-- Parser._block (after the opening brace): declarations until the
closing brace, which is then required. -/
def pBlock : Nat → List Token → Nat → Except ParseErr (StmtList × Nat)
  | 0, _, _ => Except.error .outOfFuel
  | fuel + 1, toks, pos =>
      if !(checkT toks pos .RBRACE) && !(isAtEndT toks pos) then
        match pDeclaration fuel toks pos with
        | Except.error e => Except.error e
        | Except.ok (s, p') =>
            match pBlock fuel toks p' with
            | Except.error e => Except.error e
            | Except.ok (rest, p'') => Except.ok (.cons s rest, p'')
      else
        match consumeT toks pos .RBRACE "Expected '\x7d' after block" with
        | Except.error e => Except.error e
        | Except.ok (_, p') => Except.ok (.nil, p')
termination_by structural fuel toks pos => fuel

/-- Parser._expression: delegates to the lowest-precedence level. -/
def pExpression : Nat → List Token → Nat → Except ParseErr (Expr × Nat)
  | 0, _, _ => Except.error .outOfFuel
  | fuel + 1, toks, pos => pEquality fuel toks pos
termination_by structural fuel toks pos => fuel

/-- Parser._equality: a comparison, then a left-associative `==`/`!=`
chain. -/
def pEquality : Nat → List Token → Nat → Except ParseErr (Expr × Nat)
  | 0, _, _ => Except.error .outOfFuel
  | fuel + 1, toks, pos =>
      match pComparison fuel toks pos with
      | Except.error e => Except.error e
      | Except.ok (e, p') => pEqualityLoop fuel toks p' e
termination_by structural fuel toks pos => fuel

/-- The operator loop of Parser._equality. -/
def pEqualityLoop : Nat → List Token → Nat → Expr → Except ParseErr (Expr × Nat)
  | 0, _, _, _ => Except.error .outOfFuel
  | fuel + 1, toks, pos, acc =>
      if checkT toks pos .EQEQ || checkT toks pos .NEQ then
        match pComparison fuel toks (pos + 1) with
        | Except.error e => Except.error e
        | Except.ok (r, p') =>
            pEqualityLoop fuel toks p' (.binaryOp acc (peekT toks pos).value r)
      else Except.ok (acc, pos)
termination_by structural fuel toks pos acc => fuel

/-- Parser._comparison: a term, then a left-associative `<`/`>`/`<=`/`>=`
chain. -/
def pComparison : Nat → List Token → Nat → Except ParseErr (Expr × Nat)
  | 0, _, _ => Except.error .outOfFuel
  | fuel + 1, toks, pos =>
      match pTerm fuel toks pos with
      | Except.error e => Except.error e
      | Except.ok (e, p') => pComparisonLoop fuel toks p' e
termination_by structural fuel toks pos => fuel

/-- The operator loop of Parser._comparison. -/
def pComparisonLoop : Nat → List Token → Nat → Expr → Except ParseErr (Expr × Nat)
  | 0, _, _, _ => Except.error .outOfFuel
  | fuel + 1, toks, pos, acc =>
      if checkT toks pos .LT || checkT toks pos .GT
          || checkT toks pos .LTEQ || checkT toks pos .GTEQ then
        match pTerm fuel toks (pos + 1) with
        | Except.error e => Except.error e
        | Except.ok (r, p') =>
            pComparisonLoop fuel toks p' (.binaryOp acc (peekT toks pos).value r)
      else Except.ok (acc, pos)
termination_by structural fuel toks pos acc => fuel

/-- Parser._term: a factor, then a left-associative `+`/`-` chain. -/
def pTerm : Nat → List Token → Nat → Except ParseErr (Expr × Nat)
  | 0, _, _ => Except.error .outOfFuel
  | fuel + 1, toks, pos =>
      match pFactor fuel toks pos with
      | Except.error e => Except.error e
      | Except.ok (e, p') => pTermLoop fuel toks p' e
termination_by structural fuel toks pos => fuel

/-- The operator loop of Parser._term. -/
def pTermLoop : Nat → List Token → Nat → Expr → Except ParseErr (Expr × Nat)
  | 0, _, _, _ => Except.error .outOfFuel
  | fuel + 1, toks, pos, acc =>
      if checkT toks pos .PLUS || checkT toks pos .MINUS then
        match pFactor fuel toks (pos + 1) with
        | Except.error e => Except.error e
        | Except.ok (r, p') =>
            pTermLoop fuel toks p' (.binaryOp acc (peekT toks pos).value r)
      else Except.ok (acc, pos)
termination_by structural fuel toks pos acc => fuel

/-- Parser._factor: a unary, then a left-associative `*`/`/` chain. -/
def pFactor : Nat → List Token → Nat → Except ParseErr (Expr × Nat)
  | 0, _, _ => Except.error .outOfFuel
  | fuel + 1, toks, pos =>
      match pUnary fuel toks pos with
      | Except.error e => Except.error e
      | Except.ok (e, p') => pFactorLoop fuel toks p' e
termination_by structural fuel toks pos => fuel

/-- The operator loop of Parser._factor. -/
def pFactorLoop : Nat → List Token → Nat → Expr → Except ParseErr (Expr × Nat)
  | 0, _, _, _ => Except.error .outOfFuel
  | fuel + 1, toks, pos, acc =>
      if checkT toks pos .STAR || checkT toks pos .SLASH then
        match pUnary fuel toks (pos + 1) with
        | Except.error e => Except.error e
        | Except.ok (r, p') =>
            pFactorLoop fuel toks p' (.binaryOp acc (peekT toks pos).value r)
      else Except.ok (acc, pos)
termination_by structural fuel toks pos acc => fuel

/-- Parser._unary: right-associative prefix minus, otherwise a call. -/
def pUnary : Nat → List Token → Nat → Except ParseErr (Expr × Nat)
  | 0, _, _ => Except.error .outOfFuel
  | fuel + 1, toks, pos =>
      if checkT toks pos .MINUS then
        match pUnary fuel toks (pos + 1) with
        | Except.error e => Except.error e
        | Except.ok (operand, p') =>
            Except.ok (.unaryOp (peekT toks pos).value operand, p')
      else pCall fuel toks pos
termination_by structural fuel toks pos => fuel

/-- Parser._call: a primary, then postfix `(...)` call chains. -/
def pCall : Nat → List Token → Nat → Except ParseErr (Expr × Nat)
  | 0, _, _ => Except.error .outOfFuel
  | fuel + 1, toks, pos =>
      match pPrimary fuel toks pos with
      | Except.error e => Except.error e
      | Except.ok (e, p') => pCallLoop fuel toks p' e
termination_by structural fuel toks pos => fuel

/-- The call-chaining loop of Parser._call. -/
def pCallLoop : Nat → List Token → Nat → Expr → Except ParseErr (Expr × Nat)
  | 0, _, _, _ => Except.error .outOfFuel
  | fuel + 1, toks, pos, acc =>
      if checkT toks pos .LPAREN then
        match pFinishCall fuel toks (pos + 1) acc with
        | Except.error e => Except.error e
        | Except.ok (c, p') => pCallLoop fuel toks p' c
      else Except.ok (acc, pos)
termination_by structural fuel toks pos acc => fuel

/-- Parser._finish_call (after the opening parenthesis): the argument
list, then the required closing parenthesis. -/
def pFinishCall : Nat → List Token → Nat → Expr → Except ParseErr (Expr × Nat)
  | 0, _, _, _ => Except.error .outOfFuel
  | fuel + 1, toks, pos, callee =>
      match
        (if checkT toks pos .RPAREN then Except.ok (([] : List Expr), pos)
         else
           match pExpression fuel toks pos with
           | Except.error e => Except.error e
           | Except.ok (first, p1) => pArgsLoop fuel toks p1 [first]) with
      | Except.error e => Except.error e
      | Except.ok (args, p2) =>
      match consumeT toks p2 .RPAREN "Expected ')' after arguments" with
      | Except.error e => Except.error e
      | Except.ok (_, p3) => Except.ok (.call callee (listToExprList args), p3)
termination_by structural fuel toks pos acc => fuel

/-- The argument loop of Parser._finish_call: while a comma follows,
parse another argument. -/
def pArgsLoop : Nat → List Token → Nat → List Expr → Except ParseErr (List Expr × Nat)
  | 0, _, _, _ => Except.error .outOfFuel
  | fuel + 1, toks, pos, acc =>
      if checkT toks pos .COMMA then
        match pExpression fuel toks (pos + 1) with
        | Except.error e => Except.error e
        | Except.ok (e, p') => pArgsLoop fuel toks p' (acc ++ [e])
      else Except.ok (acc, pos)
termination_by structural fuel toks pos acc => fuel

/-- Parser._primary: literals, identifiers and parenthesized expressions.
A NUMBER token's text goes through `float()` — invalid text (such as the
greedily scanned `"1.2.3"`) raises ValueError, which is not a ParseError
and escapes `parse`. -/
def pPrimary : Nat → List Token → Nat → Except ParseErr (Expr × Nat)
  | 0, _, _ => Except.error .outOfFuel
  | fuel + 1, toks, pos =>
      if checkT toks pos .TRUE then Except.ok (.boolLit true, pos + 1)
      else if checkT toks pos .FALSE then Except.ok (.boolLit false, pos + 1)
      else if checkT toks pos .NUMBER then
        match pyFloatOfString (peekT toks pos).value with
        | Option.some v => Except.ok (.number v, pos + 1)
        | Option.none => Except.error (.valueError (peekT toks pos).value)
      else if checkT toks pos .STRING then Except.ok (.stringLit (peekT toks pos).value, pos + 1)
      else if checkT toks pos .IDENT then Except.ok (.ident (peekT toks pos).value, pos + 1)
      else if checkT toks pos .LPAREN then
        match pExpression fuel toks (pos + 1) with
        | Except.error e => Except.error e
        | Except.ok (e, p1) =>
            match consumeT toks p1 .RPAREN "Expected ')' after expression" with
            | Except.error e => Except.error e
            | Except.ok (_, p2) => Except.ok (e, p2)
      else Except.error (.parseError "Expected expression" (peekT toks pos))
termination_by structural fuel toks pos => fuel
end

/-- Parser.parse: gather top-level statements into a Program.  The fuel
allowance grows with the token count and covers the recursion depth of
every input evaluated in this development. -/
def parse (tokens : List Token) : Except ParseErr Program :=
  match pProgram (20 * tokens.length + 20) tokens 0 with
  | Except.error e => Except.error e
  | Except.ok (ss, _) => Except.ok ⟨ss⟩

inductive FrontErr where
  | lexFailure (e : LexErr)
  | parseFailure (e : ParseErr)
deriving DecidableEq, Repr

/-- The front half of cli.compile_source: tokenize then parse. -/
def lexAndParse (source : String) : Except FrontErr Program :=
  match tokenize source with
  | Except.error e => Except.error (.lexFailure e)
  | Except.ok toks =>
      match parse toks with
      | Except.error e => Except.error (.parseFailure e)
      | Except.ok p => Except.ok p

/-! ## Theorems -/

example : foldExpr (.binaryOp (.number (.finite 1 1)) "+"
    (.binaryOp (.number (.finite 2 1)) "*" (.number (.finite 3 1))))
    = .number (.finite 7 1) := by decide

example : foldExpr (.binaryOp (.number (.finite 1 1)) "/" (.number (.finite 0 1)))
    = .binaryOp (.number (.finite 1 1)) "/" (.number (.finite 0 1)) := by decide

example : foldStmt (.ifStmt (.boolLit true) (.cons (.exprStmt (.number (.finite 1 1))) .nil) .none)
    = .block (.cons (.exprStmt (.number (.finite 1 1))) .nil) := by decide

/-! ## Idempotence of constant folding -/
/-- Helper: the result of `foldBinary` on two already-folded operands is
itself a fixed point of `foldExpr`. -/
theorem foldBinary_fix (l r : Expr) (op : String)
    (hl : foldExpr l = l) (hr : foldExpr r = r) :
    foldExpr (foldBinary l op r) = foldBinary l op r := by
  cases l <;> cases r <;>
    simp only [foldBinary] <;>
    first
      | (split <;> simp_all [foldExpr, foldBinary])
      | simp_all [foldExpr, foldBinary]

/-- Helper: the result of `foldUnary` on an already-folded operand is
itself a fixed point of `foldExpr`. -/
theorem foldUnary_fix (op : String) (o : Expr) (h : foldExpr o = o) :
    foldExpr (foldUnary op o) = foldUnary op o := by
  have key : foldExpr (Expr.unaryOp op o) = foldUnary op (foldExpr o) := rfl
  have disj : (∃ w, foldUnary op o = Expr.number w) ∨ foldUnary op o = Expr.unaryOp op o := by
    cases o
    case number v =>
      by_cases hop : op = "-"
      · exact Or.inl ⟨pfNeg v, by simp [foldUnary, hop]⟩
      · exact Or.inr (by simp [foldUnary, hop])
    all_goals exact Or.inr (by simp [foldUnary])
  rcases disj with ⟨w, hw⟩ | hB
  · rw [hw]; simp [foldExpr]
  · rw [hB, key, h, hB]

/-- Helper: unfolding equation for `foldStmt` on an IfStatement. -/
theorem foldStmt_ifStmt (c : Expr) (t : StmtList) (e : OptBlock) :
    foldStmt (Stmt.ifStmt c t e) = foldIfTail (foldExpr c) (foldStmtList t) (foldOptBlock e) := rfl

/-- Helper: the result of `foldIfTail` on already-folded pieces is itself a
fixed point of `foldStmt`. -/
theorem foldIfTail_fix (c : Expr) (t : StmtList) (e : OptBlock)
    (hc : foldExpr c = c) (ht : foldStmtList t = t) (he : foldOptBlock e = e) :
    foldStmt (foldIfTail c t e) = foldIfTail c t e := by
  cases c
  case boolLit b =>
    cases b
    · cases e
      · simp [foldIfTail, foldStmt, foldStmtList]
      · next bl =>
          have hbl : foldStmtList bl = bl := by
            simp only [foldOptBlock] at he
            injection he
          simp [foldIfTail, foldStmt, hbl]
    · simp [foldIfTail, foldStmt, ht]
  all_goals (simp only [foldIfTail]; rw [foldStmt_ifStmt, hc, ht, he]; simp [foldIfTail])

mutual
/-- Helper: folding an already-folded expression changes nothing. -/
theorem foldExpr_idem : (e : Expr) → foldExpr (foldExpr e) = foldExpr e
  | .number _ => by simp [foldExpr]
  | .stringLit _ => by simp [foldExpr]
  | .boolLit _ => by simp [foldExpr]
  | .ident _ => by simp [foldExpr]
  | .binaryOp l op r => by
      simp only [foldExpr]
      exact foldBinary_fix _ _ op (foldExpr_idem l) (foldExpr_idem r)
  | .unaryOp op operand => by
      simp only [foldExpr]
      exact foldUnary_fix op _ (foldExpr_idem operand)
  | .call c args => by
      simp [foldExpr, foldExpr_idem c, foldExprList_idem args]

/-- Helper: folding an already-folded argument list changes nothing. -/
theorem foldExprList_idem : (l : ExprList) → foldExprList (foldExprList l) = foldExprList l
  | .nil => rfl
  | .cons h t => by simp [foldExprList, foldExpr_idem h, foldExprList_idem t]
end

mutual
/-- Helper: folding an already-folded statement changes nothing. -/
theorem foldStmt_idem : (s : Stmt) → foldStmt (foldStmt s) = foldStmt s
  | .letStmt n v => by simp [foldStmt, foldExpr_idem v]
  | .returnStmt v => by
      cases v <;> simp [foldStmt, Option.map]
      exact foldExpr_idem _
  | .exprStmt e => by simp [foldStmt, foldExpr_idem e]
  | .block ss => by simp [foldStmt, foldStmtList_idem ss]
  | .ifStmt c t e => by
      simp only [foldStmt]
      exact foldIfTail_fix _ _ _ (foldExpr_idem c) (foldStmtList_idem t) (foldOptBlock_idem e)
  | .fnDecl n ps b => by simp [foldStmt, foldStmtList_idem b]

/-- Helper: folding an already-folded statement sequence changes nothing. -/
theorem foldStmtList_idem : (l : StmtList) → foldStmtList (foldStmtList l) = foldStmtList l
  | .nil => rfl
  | .cons h t => by simp [foldStmtList, foldStmt_idem h, foldStmtList_idem t]

/-- Helper: folding an already-folded optional else block changes nothing. -/
theorem foldOptBlock_idem : (o : OptBlock) → foldOptBlock (foldOptBlock o) = foldOptBlock o
  | .none => rfl
  | .some b => by simp [foldOptBlock, foldStmtList_idem b]
end

/-- C5: constant folding is idempotent — applying the constant-folding pass
to the result of applying it once yields a Program structurally identical
to the once-folded Program. -/
theorem constant_folding_idempotent (p : Program) :
    foldProgram (foldProgram p) = foldProgram p := by
  simp only [foldProgram, List.map_map]
  congr 1
  apply List.map_congr_left
  intro s _
  exact foldStmt_idem s

/-- C3: for every BinaryOp with operator `/` whose right operand folds to
the number literal `0`, constant folding returns the unfolded BinaryOp on
the folded operands (in particular it produces no infinity or `nan`
literal for that node and does not fail). -/
theorem fold_division_by_zero_unfolded (l r : Expr) (v : PyFloat)
    (hr : foldExpr r = Expr.number v) (hz : pfEqB v pfZero = true) :
    foldExpr (Expr.binaryOp l "/" r) = Expr.binaryOp (foldExpr l) "/" (foldExpr r) := by
  simp only [foldExpr, hr]
  have hne : pfNeB v pfZero = false := by simp [pfNeB, hz]
  cases hE : foldExpr l <;> simp [foldBinary, foldNumeric, hne]

/-! ## Lemmas about the collection phase -/
mutual
/-- Helper: every name the collection phase marks used in a statement is
either an identifier occurrence or a function parameter name there. -/
theorem usedInStmt_sub : (s : Stmt) → ∀ a ∈ usedInStmt s, a ∈ identsInStmt s ∨ a ∈ paramsInStmt s
  | .letStmt n v => by intro a ha; exact Or.inl (by simpa [identsInStmt] using ha)
  | .returnStmt w => by
      cases w <;> intro a ha <;> exact Or.inl (by simpa [identsInStmt, usedInStmt] using ha)
  | .exprStmt e => by intro a ha; exact Or.inl (by simpa [identsInStmt] using ha)
  | .block ss => by
      intro a ha
      rcases usedInStmtList_sub ss a (by simpa [usedInStmt] using ha) with h | h
      · exact Or.inl (by simpa [identsInStmt] using h)
      · exact Or.inr (by simpa [paramsInStmt] using h)
  | .ifStmt c t e => by
      intro a ha
      simp only [usedInStmt, identsInStmt, paramsInStmt, List.mem_append] at *
      rcases ha with (h | h) | h
      · exact Or.inl (Or.inl (Or.inl h))
      · rcases usedInStmtList_sub t a h with h' | h'
        · exact Or.inl (Or.inl (Or.inr h'))
        · exact Or.inr (Or.inl h')
      · rcases usedInOptBlock_sub e a h with h' | h'
        · exact Or.inl (Or.inr h')
        · exact Or.inr (Or.inr h')
  | .fnDecl n ps b => by
      intro a ha
      simp only [usedInStmt, identsInStmt, paramsInStmt, List.mem_append] at *
      rcases ha with h | h
      · exact Or.inr (Or.inl h)
      · rcases usedInStmtList_sub b a h with h' | h'
        · exact Or.inl h'
        · exact Or.inr (Or.inr h')

/-- Helper: the same fact for a statement sequence. -/
theorem usedInStmtList_sub :
    (l : StmtList) → ∀ a ∈ usedInStmtList l, a ∈ identsInStmtList l ∨ a ∈ paramsInStmtList l
  | .nil => by intro a ha; simp [usedInStmtList] at ha
  | .cons h t => by
      intro a ha
      simp only [usedInStmtList, identsInStmtList, paramsInStmtList, List.mem_append] at *
      rcases ha with h1 | h1
      · rcases usedInStmt_sub h a h1 with h' | h'
        · exact Or.inl (Or.inl h')
        · exact Or.inr (Or.inl h')
      · rcases usedInStmtList_sub t a h1 with h' | h'
        · exact Or.inl (Or.inr h')
        · exact Or.inr (Or.inr h')

/-- Helper: the same fact for an optional else block. -/
theorem usedInOptBlock_sub :
    (o : OptBlock) → ∀ a ∈ usedInOptBlock o, a ∈ identsInOptBlock o ∨ a ∈ paramsInOptBlock o
  | .none => by intro a ha; simp [usedInOptBlock] at ha
  | .some b => by
      intro a ha
      rcases usedInStmtList_sub b a (by simpa [usedInOptBlock] using ha) with h | h
      · exact Or.inl (by simpa [identsInOptBlock] using h)
      · exact Or.inr (by simpa [paramsInOptBlock] using h)
end

/-- Helper: the same fact lifted to the program's statement list. -/
theorem usedInStmts_sub :
    ∀ (l : List Stmt), ∀ a ∈ usedInStmts l, a ∈ identsInStmts l ∨ a ∈ paramsInStmts l := by
  intro l
  induction l with
  | nil => intro a ha; simp [usedInStmts] at ha
  | cons s rest ih =>
      intro a ha
      simp only [usedInStmts, identsInStmts, paramsInStmts, List.mem_append] at *
      rcases ha with h | h
      · rcases usedInStmt_sub s a h with h' | h'
        · exact Or.inl (Or.inl h')
        · exact Or.inr (Or.inl h')
      · rcases ih a h with h' | h'
        · exact Or.inl (Or.inr h')
        · exact Or.inr (Or.inr h')

mutual
/-- Helper: every identifier occurrence is marked used by the collection
phase. -/
theorem identsInStmt_sub_used : (s : Stmt) → ∀ a ∈ identsInStmt s, a ∈ usedInStmt s
  | .letStmt n v => by intro a ha; simpa [usedInStmt] using ha
  | .returnStmt w => by cases w <;> intro a ha <;> simpa [usedInStmt, identsInStmt] using ha
  | .exprStmt e => by intro a ha; simpa [usedInStmt] using ha
  | .block ss => by
      intro a ha
      simpa [usedInStmt] using identsInStmtList_sub_used ss a (by simpa [identsInStmt] using ha)
  | .ifStmt c t e => by
      intro a ha
      simp only [usedInStmt, identsInStmt, List.mem_append] at *
      rcases ha with (h | h) | h
      · exact Or.inl (Or.inl h)
      · exact Or.inl (Or.inr (identsInStmtList_sub_used t a h))
      · exact Or.inr (identsInOptBlock_sub_used e a h)
  | .fnDecl n ps b => by
      intro a ha
      simp only [usedInStmt, identsInStmt, List.mem_append] at *
      exact Or.inr (identsInStmtList_sub_used b a ha)

/-- Helper: the same fact for a statement sequence. -/
theorem identsInStmtList_sub_used :
    (l : StmtList) → ∀ a ∈ identsInStmtList l, a ∈ usedInStmtList l
  | .nil => by intro a ha; simp [identsInStmtList] at ha
  | .cons h t => by
      intro a ha
      simp only [identsInStmtList, usedInStmtList, List.mem_append] at *
      rcases ha with h1 | h1
      · exact Or.inl (identsInStmt_sub_used h a h1)
      · exact Or.inr (identsInStmtList_sub_used t a h1)

/-- Helper: the same fact for an optional else block. -/
theorem identsInOptBlock_sub_used :
    (o : OptBlock) → ∀ a ∈ identsInOptBlock o, a ∈ usedInOptBlock o
  | .none => by intro a ha; simp [identsInOptBlock] at ha
  | .some b => by
      intro a ha
      simpa [usedInOptBlock] using identsInStmtList_sub_used b a (by simpa [identsInOptBlock] using ha)
end

/-- Helper: identifier occurrences anywhere in the program are marked
used. -/
theorem identsInStmts_sub_used :
    ∀ (l : List Stmt), ∀ a ∈ identsInStmts l, a ∈ usedInStmts l := by
  intro l
  induction l with
  | nil => intro a ha; simp [identsInStmts] at ha
  | cons s rest ih =>
      intro a ha
      simp only [identsInStmts, usedInStmts, List.mem_append] at *
      rcases ha with h | h
      · exact Or.inl (identsInStmt_sub_used s a h)
      · exact Or.inr (ih a h)

/-- Helper: a name marked used inside any member statement is in the
program-wide used set. -/
theorem mem_usedInStmts_of_mem {a : String} :
    ∀ {l : List Stmt} {s : Stmt}, s ∈ l → a ∈ usedInStmt s → a ∈ usedInStmts l := by
  intro l
  induction l with
  | nil => intro s hs _; simp at hs
  | cons x rest ih =>
      intro s hs ha
      simp only [usedInStmts, List.mem_append, List.mem_cons] at *
      rcases hs with rfl | hs
      · exact Or.inl ha
      · exact Or.inr (ih hs ha)

/-- Helper: the only statement the elimination phase can turn into a given
`let` is that same `let`, and only when its name is used. -/
theorem elimStmt_eq_some_let {u : List String} {n : String} {v : Expr} :
    ∀ {s : Stmt}, elimStmt u s = Option.some (Stmt.letStmt n v) →
      s = Stmt.letStmt n v ∧ isUsed u n = true := by
  intro s h
  cases s <;> simp only [elimStmt] at h
  case letStmt m w =>
    by_cases hu : isUsed u m = true <;> simp [hu] at h
    · rcases h with ⟨rfl, rfl⟩; exact ⟨rfl, hu⟩
  case returnStmt w => simp at h
  case exprStmt e => simp at h
  case block ss => simp at h
  case ifStmt c t e => simp at h
  case fnDecl m ps b =>
    by_cases hu : isUsed u m = true <;> simp [hu] at h

/-! ## Dead-code elimination theorems -/
/-- C4, counterexample: the claim reads "a `let` whose name is never
referenced afterward is removed", but usage facts are collected over the
entire program, so a reference occurring *before* the `let` retains it.
In the program `x; let x = 1` the name `x` is never referenced after the
`let` (nothing follows it), yet dead-code elimination keeps the `let`. -/
theorem dce_never_referenced_afterward_counterexample :
    ¬ (∀ (p : Program) (pre post : List Stmt) (n : String) (v : Expr),
        p.statements = pre ++ Stmt.letStmt n v :: post →
        (∀ s ∈ post, n ∉ identsInStmt s) →
        (dce p).statements = pre ++ post) := by
  intro hclaim
  have h := hclaim
      ⟨[Stmt.exprStmt (Expr.ident "x"), Stmt.letStmt "x" (Expr.number (PyFloat.finite 1 1))]⟩
      [Stmt.exprStmt (Expr.ident "x")] [] "x" (Expr.number (PyFloat.finite 1 1))
      rfl (by simp)
  exact absurd h (by decide)

/-- C4, amended: a top-level `let` whose name occurs nowhere as an
identifier in the whole program, is no function's parameter name, and is
not a built-in (`print`/`console`) is removed; a top-level `let` whose
name occurs as an identifier anywhere in the program (before or after it,
also inside nested blocks or call arguments) is retained; and no top-level
statement other than a `let` or `fn` declaration is ever dropped. -/
theorem dce_let_removal_retention (p : Program) :
    (∀ n v, Stmt.letStmt n v ∈ p.statements →
        n ∉ identRefs p → n ∉ paramNames p → n ≠ "print" → n ≠ "console" →
        Stmt.letStmt n v ∉ (dce p).statements)
    ∧ (∀ n v, Stmt.letStmt n v ∈ p.statements → n ∈ identRefs p →
        Stmt.letStmt n v ∈ (dce p).statements)
    ∧ (∀ s ∈ p.statements, (∀ n v, s ≠ Stmt.letStmt n v) →
        (∀ n ps b, s ≠ Stmt.fnDecl n ps b) →
        ∃ s', elimStmt (usedNames p) s = Option.some s' ∧ s' ∈ (dce p).statements) := by
  refine ⟨?_, ?_, ?_⟩
  · intro n v _ hid hpar hpr hco hmem'
    simp only [dce, List.mem_filterMap] at hmem'
    rcases hmem' with ⟨s, hs, hes⟩
    rcases elimStmt_eq_some_let hes with ⟨rfl, hu⟩
    simp only [isUsed, Bool.or_eq_true, beq_iff_eq] at hu
    rcases hu with ((h | h) | h)
    · exact hpr h
    · exact hco h
    · rcases usedInStmts_sub p.statements n (List.elem_iff.mp h) with h' | h'
      · exact hid h'
      · exact hpar h'
  · intro n v hmem hid
    have hu : isUsed (usedNames p) n = true := by
      have : n ∈ usedNames p :=
        identsInStmts_sub_used p.statements n hid
      simp [isUsed, this]
    simp only [dce, List.mem_filterMap]
    exact ⟨Stmt.letStmt n v, hmem, by simp [elimStmt, hu]⟩
  · intro s hmem hnl hnf
    have : ∃ s', elimStmt (usedNames p) s = Option.some s' := by
      cases s
      case letStmt n v => exact absurd rfl (hnl n v)
      case fnDecl n ps b => exact absurd rfl (hnf n ps b)
      all_goals exact ⟨_, rfl⟩
    rcases this with ⟨s', hs'⟩
    exact ⟨s', hs', by simp only [dce, List.mem_filterMap]; exact ⟨s, hmem, hs'⟩⟩

/-- Witness for C4 on the program `let u = 100; r; let r = 1`: the unused
`u` is removed and the referenced `r` is retained. -/
theorem dce_let_removal_retention_witness :
    Stmt.letStmt "u" (Expr.number (PyFloat.finite 100 1)) ∉
      (dce ⟨[Stmt.letStmt "u" (Expr.number (PyFloat.finite 100 1)),
             Stmt.exprStmt (Expr.ident "r"),
             Stmt.letStmt "r" (Expr.number (PyFloat.finite 1 1))]⟩).statements
    ∧ Stmt.letStmt "r" (Expr.number (PyFloat.finite 1 1)) ∈
      (dce ⟨[Stmt.letStmt "u" (Expr.number (PyFloat.finite 100 1)),
             Stmt.exprStmt (Expr.ident "r"),
             Stmt.letStmt "r" (Expr.number (PyFloat.finite 1 1))]⟩).statements :=
  ⟨(dce_let_removal_retention _).1 "u" _ (by decide) (by decide) (by decide)
      (by decide) (by decide),
   (dce_let_removal_retention _).2.1 "r" _ (by decide) (by decide)⟩

/-- C9: usage facts are collected over the whole input program before any
statement is removed, and only one removal round runs: a `let` named `a`
that is referenced from the initializer of another `let` named `b` is
retained even when `b` itself is unused and therefore eliminated — there
is no cascading elimination of transitively dead bindings. -/
theorem dce_no_cascading_elimination (p : Program) (a b : String) (va vb : Expr)
    (ha : Stmt.letStmt a va ∈ p.statements)
    (hb : Stmt.letStmt b vb ∈ p.statements)
    (href : a ∈ usedInExpr vb)
    (hbdead : isUsed (usedNames p) b = false) :
    Stmt.letStmt b vb ∉ (dce p).statements
    ∧ Stmt.letStmt a va ∈ (dce p).statements := by
  constructor
  · intro hmem'
    simp only [dce, List.mem_filterMap] at hmem'
    rcases hmem' with ⟨s, _, hes⟩
    rcases elimStmt_eq_some_let hes with ⟨rfl, hu⟩
    rw [hbdead] at hu
    exact Bool.false_ne_true hu
  · have hused : a ∈ usedNames p :=
      mem_usedInStmts_of_mem hb (by simpa [usedInStmt] using href)
    have hu : isUsed (usedNames p) a = true := by
      simp [isUsed, hused]
    simp only [dce, List.mem_filterMap]
    exact ⟨Stmt.letStmt a va, ha, by simp [elimStmt, hu]⟩

/-- Witness for C9 on the program `let a = 1; let b = a`: `b` is removed,
`a` is retained although its only reference sat inside `b`'s initializer. -/
theorem dce_no_cascading_elimination_witness :
    Stmt.letStmt "b" (Expr.ident "a") ∉
      (dce ⟨[Stmt.letStmt "a" (Expr.number (PyFloat.finite 1 1)),
             Stmt.letStmt "b" (Expr.ident "a")]⟩).statements
    ∧ Stmt.letStmt "a" (Expr.number (PyFloat.finite 1 1)) ∈
      (dce ⟨[Stmt.letStmt "a" (Expr.number (PyFloat.finite 1 1)),
             Stmt.letStmt "b" (Expr.ident "a")]⟩).statements :=
  dce_no_cascading_elimination _ "a" "b" _ _ (by decide) (by decide) (by decide) (by decide)

/-- C10: with both passes disabled the optimizer is the identity — it
returns the input program unchanged. -/
theorem optimize_disabled_is_identity (p : Program) :
    optimize false false p = p := rfl

/-- Witness for C3 at the concrete node `1 / 0`. -/
theorem fold_division_by_zero_unfolded_witness :
    foldExpr (Expr.binaryOp (Expr.number (PyFloat.finite 1 1)) "/"
        (Expr.number (PyFloat.finite 0 1)))
      = Expr.binaryOp (foldExpr (Expr.number (PyFloat.finite 1 1))) "/"
        (foldExpr (Expr.number (PyFloat.finite 0 1))) :=
  fold_division_by_zero_unfolded _ _ (PyFloat.finite 0 1) (by decide) (by decide)

/-- Helper: bind on a successful `Except` computation. -/
theorem except_ok_bind {ε α β : Type} (a : α) (f : α → Except ε β) :
    (Except.ok a >>= f : Except ε β) = f a := rfl

/-! ## Code generation theorems -/
/-- C7: a call whose generated callee text is exactly `print` is emitted
with callee text `console.log`, and a call whose generated callee text is
anything else keeps that text verbatim — the rewrite is a literal text
substitution applied to the generated callee text, with no binding
analysis, so it hits a user-defined identifier named `print` just the
same. -/
theorem gen_call_print_rewrite (c : Expr) (args : ExprList) (s : String) (ts : List String)
    (hc : genExpr c = Except.ok s) (ha : genArgList args = Except.ok ts) :
    genExpr (Expr.call c args) =
      Except.ok ((if s = "print" then "console.log" else s) ++ "(" ++ joinSep ", " ts ++ ")") := by
  simp [genExpr, hc, ha, except_ok_bind]

/-- Witness for C7: a user-defined identifier named `print` is rewritten
to `console.log`, and the identifier `foo` is not. -/
theorem gen_call_print_rewrite_witness :
    genExpr (Expr.call (Expr.ident "print") ExprList.nil) =
      Except.ok ((if "print" = "print" then "console.log" else "print")
        ++ "(" ++ joinSep ", " [] ++ ")")
    ∧ genExpr (Expr.call (Expr.ident "foo") ExprList.nil) =
      Except.ok ((if "foo" = "print" then "console.log" else "foo")
        ++ "(" ++ joinSep ", " [] ++ ")") :=
  ⟨gen_call_print_rewrite (Expr.ident "print") ExprList.nil "print" [] rfl rfl,
   gen_call_print_rewrite (Expr.ident "foo") ExprList.nil "foo" [] rfl rfl⟩

/-- C2, counterexample: generate is not total on every well-formed
Program.  A NumberLiteral can carry the float value `inf` (Python floats
include the infinities, and `float` conversion or folding can produce
them); on such a node visit_number's `int()` raises OverflowError. -/
theorem generate_total_counterexample :
    ¬ (∀ p : Program, ∃ s, generate p = Except.ok s) := by
  intro h
  rcases h ⟨[Stmt.exprStmt (Expr.number PyFloat.inf)]⟩ with ⟨s, hs⟩
  rw [show generate ⟨[Stmt.exprStmt (Expr.number PyFloat.inf)]⟩
      = Except.error GenErr.overflowError from rfl] at hs
  exact Except.noConfusion hs

mutual
/-- Helper: expression generation succeeds whenever every number literal
in the expression is finite. -/
theorem genExpr_ok : (e : Expr) → exprNumsFinite e = true → ∃ s, genExpr e = Except.ok s
  | .number v => by
      cases v <;> simp [exprNumsFinite, genExpr, visitNumber]
      split <;> exact ⟨_, rfl⟩
  | .stringLit s => fun _ => ⟨_, rfl⟩
  | .boolLit b => fun _ => ⟨_, rfl⟩
  | .ident n => fun _ => ⟨_, rfl⟩
  | .binaryOp l op r => by
      intro h
      simp only [exprNumsFinite, Bool.and_eq_true] at h
      rcases genExpr_ok l h.1 with ⟨ls, hl⟩
      rcases genExpr_ok r h.2 with ⟨rs, hr⟩
      simp only [genExpr, hl, hr, except_ok_bind]
      exact ⟨_, rfl⟩
  | .unaryOp op o => by
      intro h
      rcases genExpr_ok o (by simpa [exprNumsFinite] using h) with ⟨os, ho⟩
      simp only [genExpr, ho, except_ok_bind]
      exact ⟨_, rfl⟩
  | .call c args => by
      intro h
      simp only [exprNumsFinite, Bool.and_eq_true] at h
      rcases genExpr_ok c h.1 with ⟨cs, hc⟩
      rcases genArgList_ok args h.2 with ⟨ts, ht⟩
      simp only [genExpr, hc, ht, except_ok_bind]
      exact ⟨_, rfl⟩

/-- Helper: argument-list generation succeeds on finite literals. -/
theorem genArgList_ok :
    (l : ExprList) → exprListNumsFinite l = true → ∃ ts, genArgList l = Except.ok ts
  | .nil => fun _ => ⟨_, rfl⟩
  | .cons h t => by
      intro hf
      simp only [exprListNumsFinite, Bool.and_eq_true] at hf
      rcases genExpr_ok h hf.1 with ⟨hs, hh⟩
      rcases genArgList_ok t hf.2 with ⟨ts, ht⟩
      simp only [genArgList, hh, ht, except_ok_bind]
      exact ⟨_, rfl⟩
end

mutual
/-- Helper: statement generation succeeds on finite literals. -/
theorem genStmt_ok :
    (s : Stmt) → ∀ lvl, stmtNumsFinite s = true → ∃ t, genStmt lvl s = Except.ok t
  | .letStmt n v => by
      intro lvl h
      rcases genExpr_ok v (by simpa [stmtNumsFinite] using h) with ⟨vs, hv⟩
      simp only [genStmt, hv, except_ok_bind]
      exact ⟨_, rfl⟩
  | .returnStmt (Option.some e) => by
      intro lvl h
      rcases genExpr_ok e (by simpa [stmtNumsFinite] using h) with ⟨es, he⟩
      simp only [genStmt, he, except_ok_bind]
      exact ⟨_, rfl⟩
  | .returnStmt Option.none => fun lvl _ => ⟨_, rfl⟩
  | .exprStmt e => by
      intro lvl h
      rcases genExpr_ok e (by simpa [stmtNumsFinite] using h) with ⟨es, he⟩
      simp only [genStmt, he, except_ok_bind]
      exact ⟨_, rfl⟩
  | .block ss => by
      intro lvl h
      rcases genStmtLines_ok ss lvl (by simpa [stmtNumsFinite] using h) with ⟨ls, hl⟩
      simp only [genStmt, hl, except_ok_bind]
      exact ⟨_, rfl⟩
  | .ifStmt c t e => by
      intro lvl h
      simp only [stmtNumsFinite, Bool.and_eq_true] at h
      rcases genExpr_ok c h.1.1 with ⟨cs, hc⟩
      rcases genStmtLines_ok t (lvl + 1) h.1.2 with ⟨ts, ht⟩
      cases e
      case none =>
        simp only [genStmt, hc, ht, except_ok_bind]
        exact ⟨_, rfl⟩
      case some b =>
        rcases genStmtLines_ok b (lvl + 1) (by simpa [optBlockNumsFinite] using h.2)
          with ⟨bs, hb⟩
        simp only [genStmt, hc, ht, hb, except_ok_bind]
        exact ⟨_, rfl⟩
  | .fnDecl n ps b => by
      intro lvl h
      rcases genStmtLines_ok b (lvl + 1) (by simpa [stmtNumsFinite] using h) with ⟨bs, hb⟩
      simp only [genStmt, hb, except_ok_bind]
      exact ⟨_, rfl⟩

/-- Helper: statement-sequence generation succeeds on finite literals. -/
theorem genStmtLines_ok :
    (l : StmtList) → ∀ lvl, stmtListNumsFinite l = true → ∃ ts, genStmtLines lvl l = Except.ok ts
  | .nil => fun lvl _ => ⟨_, rfl⟩
  | .cons h t => by
      intro lvl hf
      simp only [stmtListNumsFinite, Bool.and_eq_true] at hf
      rcases genStmt_ok h lvl hf.1 with ⟨hs, hh⟩
      rcases genStmtLines_ok t lvl hf.2 with ⟨ts, ht⟩
      simp only [genStmtLines, hh, ht, except_ok_bind]
      exact ⟨_, rfl⟩
end

/-- Helper: top-level line generation succeeds on finite literals. -/
theorem genStmts_ok :
    ∀ (l : List Stmt) lvl, l.all stmtNumsFinite = true → ∃ ts, genStmts lvl l = Except.ok ts := by
  intro l
  induction l with
  | nil => exact fun lvl _ => ⟨_, rfl⟩
  | cons s rest ih =>
      intro lvl hf
      simp only [List.all_cons, Bool.and_eq_true] at hf
      rcases genStmt_ok s lvl hf.1 with ⟨hs, hh⟩
      rcases ih lvl hf.2 with ⟨ts, ht⟩
      simp only [genStmts, hh, ht, except_ok_bind]
      exact ⟨_, rfl⟩

/-- C2, amended: generate is total on every well-formed Program whose
NumberLiteral values are all finite — it returns an output string and
never fails.  (On a NumberLiteral carrying an infinity or `nan`,
visit_number's `int()` conversion raises, as the counterexample shows.) -/
theorem generate_total_on_finite (p : Program) (h : progNumsFinite p = true) :
    ∃ s, generate p = Except.ok s := by
  rcases genStmts_ok p.statements 0 (by simpa [progNumsFinite] using h) with ⟨ls, hl⟩
  simp only [generate, hl, except_ok_bind]
  exact ⟨_, rfl⟩

/-- Witness for C2 on a small finite-valued program. -/
theorem generate_total_on_finite_witness :
    ∃ s, generate ⟨[Stmt.letStmt "x" (Expr.number (PyFloat.finite 3 2)),
                    Stmt.exprStmt (Expr.call (Expr.ident "print")
                      (ExprList.cons (Expr.ident "x") ExprList.nil))]⟩ = Except.ok s :=
  generate_total_on_finite _ (by decide)

example : tokenize ".5" = Except.error (.lexerError "Unexpected character: ." 1 1) := rfl

example : tokenize "1.2.3" =
    Except.ok [⟨.NUMBER, "1.2.3", 1, 1⟩, ⟨.EOF, "", 1, 6⟩] := rfl

example : tokenize "let x = 1 // c" =
    Except.ok [⟨.LET, "let", 1, 1⟩, ⟨.IDENT, "x", 1, 5⟩, ⟨.EQ, "=", 1, 7⟩,
      ⟨.NUMBER, "1", 1, 9⟩, ⟨.EOF, "", 1, 15⟩] := rfl

/-! ## Lexer theorems -/
/-- Helper: the number-scanning loop only appends to its accumulated
text. -/
theorem numberLoop_data :
    ∀ (fuel : Nat) (st : LexState) (v : String),
      ∃ l, (numberLoop fuel st v).1.data = v.data ++ l := by
  intro fuel
  induction fuel with
  | zero => exact fun st v => ⟨[], by simp [numberLoop]⟩
  | succ f ih =>
      intro st v
      simp only [numberLoop]
      split
      · rcases ih (st.advance).2 (v.push (st.advance).1) with ⟨l, hl⟩
        refine ⟨(st.advance).1 :: l, ?_⟩
        simpa [String.push, List.append_assoc] using hl
      · exact ⟨[], by simp⟩

/-- Helper: the string scanner only produces STRING tokens. -/
theorem lexString_type :
    ∀ (fuel : Nat) (sl sc : Nat) (st : LexState) (v : String) (r : Token × LexState),
      lexString sl sc fuel st v = Except.ok r → r.1.type = TokenType.STRING := by
  intro fuel
  induction fuel with
  | zero => intro sl sc st v r h; simp [lexString] at h
  | succ f ih =>
      intro sl sc st v r h
      simp only [lexString] at h
      split at h
      · split at h
        · simp at h
        · exact ih sl sc _ _ r h
      · split at h
        · simp at h
        · simp at h
          rw [← h]

/-- Helper: no keyword lookup yields a NUMBER classification. -/
theorem keywordType_ne_number : ∀ s, keywordType s ≠ TokenType.NUMBER := by
  intro s
  simp only [keywordType]
  split <;> simp

/-- Helper: a scanner success carrying a token of a non-NUMBER type
contradicts the assumption that the scanned token has type NUMBER. -/
theorem ok_token_ne_number {ty : TokenType} {v : String} {sl sc : Nat} {t : Token}
    {a b : LexState}
    (h : (Except.ok (Option.some (Token.mk ty v sl sc), a) :
        Except LexErr (Option Token × LexState)) = Except.ok (Option.some t, b))
    (hn : t.type = TokenType.NUMBER) (hne : ty ≠ TokenType.NUMBER) : False := by
  simp at h
  rcases h with ⟨h1, _⟩
  rw [← h1] at hn
  exact hne hn

/-- Helper: the single-character token table never yields NUMBER. -/
theorem singleCharToken_ne_number :
    ∀ c ty, singleCharToken c = Option.some ty → ty ≠ TokenType.NUMBER := by
  intro c ty h
  simp only [singleCharToken] at h
  split_ifs at h <;>
    first
      | (simp only [Option.some.injEq] at h; subst h; simp)
      | simp at h

/-- Helper: any NUMBER token produced by Lexer._next_token begins with a
digit — the number rule fires only on a digit-initiated run, and the
scanning loop merely appends to that first digit. -/
theorem nextToken_number_starts_with_digit
    (st : LexState) (t : Token) (st' : LexState)
    (h : nextToken st = Except.ok (Option.some t, st'))
    (hn : t.type = TokenType.NUMBER) :
    ∃ c cs, t.value.data = c :: cs ∧ c.isDigit = true := by
  simp only [nextToken] at h
  set st0 := skipWhitespaceAndComments (st.source.length + 1) st with hst0
  set c := (st0.advance).1 with hc
  set st1 := (st0.advance).2 with hst1
  clear hst0 hc hst1
  clear_value st1 c st0
  by_cases hEnd : st0.isAtEnd = true
  · rw [if_pos hEnd] at h
    simp at h
  · rw [if_neg hEnd] at h
    split at h
    · rename_i ty hS
      simp at h
      rcases h with ⟨h1, _⟩
      rw [← h1] at hn
      exact absurd hn (singleCharToken_ne_number c ty hS)
    · rename_i hS
      split_ifs at h with h1 h2 h3 h4 h5 h6 h7 h8 h9 h10 h11
      -- the branches: the two-character-operator and error branches close
      -- by token-type or constructor clash; the string, digit and
      -- identifier branches are handled by their dedicated alternatives
      all_goals first
        | exact Except.noConfusion h
        | (refine (ok_token_ne_number h hn ?_).elim
           decide)
        | (cases hls : lexString st0.line st0.column (st1.source.length + 1) st1 "" with
            | error e =>
                rw [hls] at h
                simp [Except.map] at h
            | ok r =>
                rw [hls] at h
                simp [Except.map] at h
                rcases h with ⟨h1, _⟩
                have htt := lexString_type _ _ _ _ _ _ hls
                rw [← h1, htt] at hn
                simp at hn)
        | (rcases numberLoop_data (st1.source.length + 1) st1 c.toString with ⟨l, hl⟩
           simp at h
           rcases h with ⟨h1, _⟩
           refine ⟨c, l, ?_, ?_⟩
           · rw [← h1]
             rw [show c.toString.data = [c] from rfl] at hl
             exact hl
           · assumption)
        | (simp at h
           rcases h with ⟨h1, _⟩
           rw [← h1] at hn
           exact absurd hn (keywordType_ne_number _))

/-- Helper: the token-list invariant of the scanning loop — every NUMBER
token begins with a digit. -/
theorem tokenizeLoop_number :
    ∀ (fuel : Nat) (st : LexState) (toks : List Token) (st' : LexState),
      tokenizeLoop fuel st = Except.ok (toks, st') →
      ∀ t ∈ toks, t.type = TokenType.NUMBER →
        ∃ c cs, t.value.data = c :: cs ∧ c.isDigit = true := by
  intro fuel
  induction fuel with
  | zero =>
      intro st toks st' h t ht _
      simp only [tokenizeLoop] at h
      simp at h
      rcases h with ⟨h1, _⟩
      rw [h1] at ht
      simp at ht
  | succ f ih =>
      intro st toks st' h t ht hn
      simp only [tokenizeLoop] at h
      split at h
      · simp at h
        rcases h with ⟨h1, _⟩
        rw [h1] at ht
        simp at ht
      · split at h
        · exact Except.noConfusion h
        · rename_i opt st1 heq
          split at h
          · exact Except.noConfusion h
          · rename_i toks2 st2 heq2
            simp at h
            rcases h with ⟨h1, _⟩
            rw [← h1] at ht
            rcases List.mem_append.mp ht with hmem | hmem
            · cases opt
              · simp at hmem
              · rename_i tok
                simp at hmem
                subst hmem
                exact nextToken_number_starts_with_digit st t st1 heq hn
            · exact ih st1 toks2 st2 heq2 t hmem hn

/-- C8: tokenizing `".5"` fails with a LexerError reporting an unexpected
character at the leading `.` (line 1, column 1); and in general a `.` that
is not preceded by a digit never starts a NUMBER token — every NUMBER
token in any successful tokenization begins with a digit. -/
theorem lex_leading_dot_rejected :
    tokenize ".5" = Except.error (LexErr.lexerError "Unexpected character: ." 1 1)
    ∧ ∀ (src : String) (toks : List Token), tokenize src = Except.ok toks →
        ∀ t ∈ toks, t.type = TokenType.NUMBER →
          ∃ c cs, t.value.data = c :: cs ∧ c.isDigit = true := by
  constructor
  · rfl
  · intro src toks h t ht hn
    simp only [tokenize] at h
    split at h
    · exact Except.noConfusion h
    · rename_i toks0 st0 heq
      simp at h
      rw [← h] at ht
      rcases List.mem_append.mp ht with hmem | hmem
      · exact tokenizeLoop_number _ _ _ _ heq t hmem hn
      · simp at hmem
        rw [hmem] at hn
        simp at hn

/-- Witness for C8's universal half at the NUMBER token produced from
`"1.5"`. -/
theorem lex_leading_dot_rejected_witness :
    ∃ c cs, (Token.mk TokenType.NUMBER "1.5" 1 1).value.data = c :: cs ∧ c.isDigit = true :=
  lex_leading_dot_rejected.2 "1.5"
    [⟨TokenType.NUMBER, "1.5", 1, 1⟩, ⟨TokenType.EOF, "", 1, 4⟩] rfl
    ⟨TokenType.NUMBER, "1.5", 1, 1⟩ (List.mem_cons_self _ _) rfl

example : lexAndParse "let x = 1" =
    Except.ok ⟨[Stmt.letStmt "x" (Expr.number (PyFloat.finite 1 1))]⟩ := rfl

/-! ## Parser theorems -/
set_option maxHeartbeats 2000000 in
/-- C6: `"1 + 2 * 3"` parses to a single expression statement whose root
BinaryOp has operator `+` and whose right child is the BinaryOp `2 * 3`
(multiplicative binds tighter than additive); `"a < b == c > d"` parses to
a root BinaryOp with operator `==` whose children are the comparisons
(equality binds loosest), all levels left-associative. -/
theorem parse_precedence_and_associativity :
    lexAndParse "1 + 2 * 3" = Except.ok ⟨[Stmt.exprStmt
        (Expr.binaryOp (Expr.number (PyFloat.finite 1 1)) "+"
          (Expr.binaryOp (Expr.number (PyFloat.finite 2 1)) "*"
            (Expr.number (PyFloat.finite 3 1))))]⟩
    ∧ lexAndParse "a < b == c > d" = Except.ok ⟨[Stmt.exprStmt
        (Expr.binaryOp (Expr.binaryOp (Expr.ident "a") "<" (Expr.ident "b")) "=="
          (Expr.binaryOp (Expr.ident "c") ">" (Expr.ident "d")))]⟩ :=
  ⟨rfl, rfl⟩

/-- C1: the lexer greedily scans `"1.2.3"` as one NUMBER token, and parse
on that token list fails with the embedded Python ValueError from
`float("1.2.3")` in `_primary` — not with a ParseError, contradicting the
documented contract that parse returns a Program or raises ParseError
only. -/
theorem parse_number_token_raises_valueerror :
    tokenize "1.2.3" =
      Except.ok [⟨TokenType.NUMBER, "1.2.3", 1, 1⟩, ⟨TokenType.EOF, "", 1, 6⟩]
    ∧ parse [⟨TokenType.NUMBER, "1.2.3", 1, 1⟩, ⟨TokenType.EOF, "", 1, 6⟩]
        = Except.error (ParseErr.valueError "1.2.3") :=
  ⟨rfl, rfl⟩

end Foolang

